import Mathlib

/-!
# Verification of the gochan shared-memory channel runtime

Shallow embedding of the `SharedChannel` class (src/channel.ts), the
`WaitGroup` (src/wait-group.ts), the `WorkerPool` teardown path
(src/worker-pool.ts) and `calculateElementSize` (src/with-safety.ts),
together with proofs and refutations of the specification claims.

The channel state is the seven-word header of the `SharedArrayBuffer`
plus the data region, modelled as a list of bytes (`Nat` values < 256).
JavaScript numeric quirks that the source relies on are modelled
explicitly:

* `x % 0` is `NaN`; every comparison against `NaN` is `false`.  We model
  the occupancy expression `(writeIndex - readIndex + bufferSize) %
  bufferSize` as an `Option Int`, `none` standing for `NaN`.
* `DataView` accessors convert a `NaN` byte offset with `ToIndex`, which
  yields `0`.
* `DataView` reads/writes past the end of the view throw a `RangeError`;
  we model the accessors with `Option`, and the byte-by-byte copy loop
  with a result flag so that the bytes written before the failing index
  stay written.
-/

namespace GoChan

/-- Error outcomes that `send`/`receive` can reject with in the source. -/
inductive ChanError
  /-- `new Error('Cannot send to closed channel')` -/
  | closedChannel
  /-- `new Error('Channel is closed and empty')` -/
  | closedAndEmpty
  /-- a `RangeError` thrown by a `DataView` accessor -/
  | rangeError
  /-- an exception thrown by the user serializer -/
  | serializeError
  /-- an exception thrown by the user deserializer -/
  | deserializeError
deriving Repr, DecidableEq

/-- The channel header (seven int32 words of the shared region) plus the
data region that follows it.  Field order and names follow the
`ChannelHeader` interface in src/channel.ts. -/
structure ChannelState where
  bufferSize : Nat
  writeIndex : Nat
  readIndex : Nat
  closed : Bool
  elementSize : Nat
  waitingSenders : Nat
  waitingReceivers : Nat
  /-- the `capacity * slot_size` data bytes after the 28-byte header -/
  data : List Nat
deriving Repr, DecidableEq

/-- `HEADER_SIZE = 7 * 4` from src/channel.ts. -/
def HEADER_SIZE : Nat := 7 * 4

/-- `const totalSize = HEADER_SIZE + bufferSize * elementSize`. -/
def totalSize (bufferSize elementSize : Nat) : Nat :=
  HEADER_SIZE + bufferSize * elementSize

/-- The `SharedChannel` constructor: allocates a zeroed region of
`totalSize` bytes and initialises the seven header words.  The source
performs no validation of `bufferSize` or `elementSize` whatsoever. -/
def construct (bufferSize elementSize : Nat) : ChannelState :=
  { bufferSize := bufferSize
    writeIndex := 0
    readIndex := 0
    closed := false
    elementSize := elementSize
    waitingSenders := 0
    waitingReceivers := 0
    data := List.replicate (bufferSize * elementSize) 0 }

/-- The seven header words as stored by the constructor / maintained by
the operations, in the order they sit in the buffer. -/
def headerWords (ch : ChannelState) : List Nat :=
  [ch.bufferSize, ch.writeIndex, ch.readIndex,
   (if ch.closed then 1 else 0), ch.elementSize,
   ch.waitingSenders, ch.waitingReceivers]

/-- `(writeIndex - readIndex + bufferSize) % bufferSize` as JavaScript
evaluates it: `none` models the `NaN` produced when `bufferSize = 0`.
In every state reachable from `construct` the dividend is nonnegative,
where the JS remainder agrees with `Int.emod`. -/
def currentSize (ch : ChannelState) : Option Int :=
  if ch.bufferSize = 0 then none
  else some (((ch.writeIndex : Int) - ch.readIndex + ch.bufferSize) % (ch.bufferSize : Int))

/-- `x >= y` in JS where `x` may be `NaN` (compares false). -/
def optGe (x : Option Int) (y : Int) : Bool :=
  match x with
  | none => false
  | some v => y ≤ v

/-- `x < y` in JS where `x` may be `NaN` (compares false). -/
def optLt (x : Option Int) (y : Int) : Bool :=
  match x with
  | none => false
  | some v => v < y

/-- `(i % bufferSize) * elementSize` as a `DataView` byte offset.  For
`bufferSize = 0` the JS expression is `NaN` and `ToIndex(NaN) = 0`, so
the accessors act at offset `0`. -/
def slotOffset (i bufferSize elementSize : Nat) : Nat :=
  if bufferSize = 0 then 0 else (i % bufferSize) * elementSize

/-- `DataView.setUint8(off, b)`: writes `b` modulo 256, or throws
(`none`) when `off` is outside the view. -/
def setByte (data : List Nat) (off b : Nat) : Option (List Nat) :=
  if off < data.length then some (data.set off (b % 256)) else none

/-- The byte-copy loop of `send`: `setUint8(offset + 4 + i, ...)` for
each payload byte.  Returns the data after the loop and whether every
write succeeded; on a `RangeError` the earlier bytes stay written. -/
def setBytes : List Nat → Nat → List Nat → List Nat × Bool
  | data, _, [] => (data, true)
  | data, off, b :: bs =>
    match setByte data off b with
    | some d => setBytes d (off + 1) bs
    | none => (data, false)

/-- `DataView.setUint32(off, v, true)` (little-endian): all-or-nothing
write of the four bytes of `v`. -/
def setUint32LE (data : List Nat) (off v : Nat) : Option (List Nat) :=
  if off + 4 ≤ data.length then
    some ((((data.set off (v % 256)).set (off + 1) (v / 256 % 256)).set
      (off + 2) (v / 256 ^ 2 % 256)).set (off + 3) (v / 256 ^ 3 % 256))
  else none

/-- `DataView.getUint32(off, true)`: little-endian read of four bytes,
`none` on a `RangeError`. -/
def getUint32LE (data : List Nat) (off : Nat) : Option Nat :=
  if off + 4 ≤ data.length then
    some (data.getD off 0 + 256 * data.getD (off + 1) 0 +
      256 ^ 2 * data.getD (off + 2) 0 + 256 ^ 3 * data.getD (off + 3) 0)
  else none

/-- The byte-copy loop of `receive`: `getUint8(offset + 4 + i)` for
`i < len`; `none` when any index is outside the view. -/
def getBytes (data : List Nat) (off len : Nat) : Option (List Nat) :=
  if off + len ≤ data.length then
    some ((List.range len).map fun i => data.getD (off + i) 0)
  else none

/-- Outcome of one pass of `tryWrite` inside `send`. -/
inductive SendStep
  /-- data written, `writeIndex` stored back incremented, promise resolved -/
  | committed (ch : ChannelState)
  /-- took the wait branch: `waitingSenders` incremented, now inside `waitForSpace` -/
  | parked (ch : ChannelState)
  /-- promise rejected with this error -/
  | failed (e : ChanError) (ch : ChannelState)
deriving Repr, DecidableEq

/-- Outcome of one pass of `tryRead` inside `receive`. -/
inductive RecvStep (α : Type)
  /-- slot consumed, `readIndex` stored back incremented, value returned -/
  | received (v : α) (ch : ChannelState)
  /-- took the wait branch: `waitingReceivers` incremented, now inside `waitForData` -/
  | parked (ch : ChannelState)
  /-- promise rejected with this error -/
  | failed (e : ChanError) (ch : ChannelState)
deriving DecidableEq

/-- One pass of the `tryWrite` closure in `send` (src/channel.ts lines
122-166).  `ser` is the outcome of `this.serializer(data)`, which the
source invokes inside the `try` block. -/
def tryWrite (ch : ChannelState) (ser : Except Unit (List Nat)) : SendStep :=
  if ch.bufferSize == 0 || optGe (currentSize ch) ch.bufferSize then
    .parked { ch with waitingSenders := ch.waitingSenders + 1 }
  else
    match ser with
    | .error _ => .failed .serializeError ch
    | .ok bytes =>
      let off := slotOffset ch.writeIndex ch.bufferSize ch.elementSize
      match setUint32LE ch.data off bytes.length with
      | none => .failed .rangeError ch
      | some d1 =>
        match setBytes d1 (off + 4) bytes with
        | (d2, false) => .failed .rangeError { ch with data := d2 }
        | (d2, true) =>
          .committed { ch with data := d2, writeIndex := ch.writeIndex + 1 }

/-- Entry of `send` (lines 115-121): the closed check, then the first
`tryWrite` pass. -/
def sendEnter (ch : ChannelState) (ser : Except Unit (List Nat)) : SendStep :=
  if ch.closed then .failed .closedChannel ch else tryWrite ch ser

/-- The resolve condition checked by `waitForSpace` (lines 240-257):
`currentSize < this.bufferSize || closed` — for `bufferSize = 0` the
first disjunct is a `NaN` comparison and is `false`. -/
def waitForSpaceResolved (ch : ChannelState) : Bool :=
  optLt (currentSize ch) ch.bufferSize || ch.closed

/-- What a parked sender does once `waitForSpace` resolves (lines
133-137): decrement `waitingSenders` and run `tryWrite` again.  Note
that the closed check at the top of `send` is NOT re-run. -/
def parkedSenderRetry (ch : ChannelState) (ser : Except Unit (List Nat)) : SendStep :=
  tryWrite { ch with waitingSenders := ch.waitingSenders - 1 } ser

/-- One pass of the `tryRead` closure in `receive` (lines 183-234).
`deser` is `this.deserializer`. -/
def tryRead {α : Type} (deser : List Nat → Except Unit α) (ch : ChannelState) :
    RecvStep α :=
  if ch.writeIndex == ch.readIndex then
    if ch.closed then .failed .closedAndEmpty ch
    else .parked { ch with waitingReceivers := ch.waitingReceivers + 1 }
  else
    let off := slotOffset ch.readIndex ch.bufferSize ch.elementSize
    match getUint32LE ch.data off with
    | none => .failed .rangeError ch
    | some len =>
      match getBytes ch.data (off + 4) len with
      | none => .failed .rangeError ch
      | some bs =>
        match deser bs with
        | .error _ => .failed .deserializeError ch
        | .ok v => .received v { ch with readIndex := ch.readIndex + 1 }

/-- Entry of `receive` (lines 172-181): the closed-and-empty fast
check, then the first `tryRead` pass. -/
def receiveEnter {α : Type} (deser : List Nat → Except Unit α) (ch : ChannelState) :
    RecvStep α :=
  if ch.closed && ch.writeIndex == ch.readIndex then .failed .closedAndEmpty ch
  else tryRead deser ch

/-- The resolve condition checked by `waitForData` (lines 259-275). -/
def waitForDataResolved (ch : ChannelState) : Bool :=
  ch.writeIndex != ch.readIndex || ch.closed

/-- What a parked receiver does once `waitForData` resolves (lines
198-202): decrement `waitingReceivers` and run `tryRead` again. -/
def parkedReceiverRetry {α : Type} (deser : List Nat → Except Unit α)
    (ch : ChannelState) : RecvStep α :=
  tryRead deser { ch with waitingReceivers := ch.waitingReceivers - 1 }

/-- `close()` (lines 277-285): stores 1 into the closed word. -/
def close (ch : ChannelState) : ChannelState := { ch with closed := true }

/-- `isClosed()`. -/
def isClosed (ch : ChannelState) : Bool := ch.closed

/-- `hasData()`: `writeIndex !== readIndex`. -/
def hasData (ch : ChannelState) : Bool := ch.writeIndex != ch.readIndex

/-- The channel state after a `send` attempt, whatever its outcome
(used to build concrete traces). -/
def afterSend (ch : ChannelState) (ser : Except Unit (List Nat)) : ChannelState :=
  match sendEnter ch ser with
  | .committed ch2 => ch2
  | .parked ch2 => ch2
  | .failed _ ch2 => ch2

/-- A concrete one-byte serializer (the constructor accepts custom
serializer/deserializer pairs; this one encodes a small `Nat` as a
single byte). -/
def serNat (n : Nat) : Except Unit (List Nat) := .ok [n % 256]

/-- The matching deserializer for `serNat`. -/
def deserNat (bs : List Nat) : Except Unit Nat :=
  match bs with
  | [b] => .ok b
  | _ => .error ()

/-! ## A two-party interleaving system

For the rendezvous scenario we model a system of one sender and one
receiver sharing a channel, each an explicit state machine whose
transitions are exactly the source's `tryWrite`/`waitForSpace` and
`tryRead`/`waitForData` passes.  A schedule (list of booleans) picks
which party runs each step; `true` steps the sender. -/

/-- Control state of the sender party. -/
inductive SenderPC
  | start
  | parked
  | done
  | failed (e : ChanError)
deriving Repr, DecidableEq

/-- Control state of the receiver party. -/
inductive ReceiverPC (α : Type)
  | start
  | parked
  | done (v : α)
  | failed (e : ChanError)
deriving Repr, DecidableEq

/-- A sender, a receiver and the shared channel. -/
structure Sys (α : Type) where
  ch : ChannelState
  sender : SenderPC
  receiver : ReceiverPC α

/-- Fold a `SendStep` outcome into the system. -/
def applySendStep {α : Type} (s : Sys α) : SendStep → Sys α
  | .committed ch => { s with ch := ch, sender := .done }
  | .parked ch => { s with ch := ch, sender := .parked }
  | .failed e ch => { s with ch := ch, sender := .failed e }

/-- Fold a `RecvStep` outcome into the system. -/
def applyRecvStep {α : Type} (s : Sys α) : RecvStep α → Sys α
  | .received v ch => { s with ch := ch, receiver := .done v }
  | .parked ch => { s with ch := ch, receiver := .parked }
  | .failed e ch => { s with ch := ch, receiver := .failed e }

/-- One step of the sender: from `start` it runs the top of `send`;
while parked it polls `waitForSpace` and, when that resolves, retries
`tryWrite`; in a terminal state it idles. -/
def senderStep {α : Type} (ser : Except Unit (List Nat)) (s : Sys α) : Sys α :=
  match s.sender with
  | .start => applySendStep s (sendEnter s.ch ser)
  | .parked =>
    if waitForSpaceResolved s.ch then applySendStep s (parkedSenderRetry s.ch ser)
    else s
  | _ => s

/-- One step of the receiver, mirroring `senderStep`. -/
def receiverStep {α : Type} (deser : List Nat → Except Unit α) (s : Sys α) : Sys α :=
  match s.receiver with
  | .start => applyRecvStep s (receiveEnter deser s.ch)
  | .parked =>
    if waitForDataResolved s.ch then applyRecvStep s (parkedReceiverRetry deser s.ch)
    else s
  | _ => s

/-- Run the system under a schedule; `true` steps the sender. -/
def runSys {α : Type} (ser : Except Unit (List Nat))
    (deser : List Nat → Except Unit α) (s : Sys α) : List Bool → Sys α
  | [] => s
  | b :: rest =>
    runSys ser deser (if b then senderStep ser s else receiverStep deser s) rest

/-! ## Async iteration (`Symbol.asyncIterator`, lines 292-301)

The iterator is `while (!isClosed() || hasData()) yield await receive()`
inside a try/catch whose catch clause just returns.  We give it fuel;
`none` means the fuel ran out or the iterator is blocked awaiting a
`receive` that cannot proceed without another party. -/

/-- The code's async iterator, as a fuelled drain returning the yielded
values.  A `parked` receive means the iterator is awaiting data that no
one will provide in this single-consumer model, so it is reported as
`none` (no terminating run). -/
def iterDrain {α : Type} (deser : List Nat → Except Unit α) :
    Nat → ChannelState → Option (List α)
  | 0, _ => none
  | fuel + 1, ch =>
    if !isClosed ch || hasData ch then
      match receiveEnter deser ch with
      | .received v ch2 => (iterDrain deser fuel ch2).map fun l => v :: l
      | .failed _ _ => some []
      | .parked _ => none
    else some []

/-- The comparison loop stated by the spec: repeatedly `receive()`,
terminating cleanly on `ClosedAndEmpty`; any other failure terminates
the loop and is reported.  Returns the received values together with
the terminating error, if any. -/
def recvLoopSpec {α : Type} (deser : List Nat → Except Unit α) :
    Nat → ChannelState → Option (List α × Option ChanError)
  | 0, _ => none
  | fuel + 1, ch =>
    match receiveEnter deser ch with
    | .received v ch2 => (recvLoopSpec deser fuel ch2).map fun p => (v :: p.1, p.2)
    | .failed .closedAndEmpty _ => some ([], none)
    | .failed e _ => some ([], some e)
    | .parked _ => none

/-! ## WaitGroup (src/wait-group.ts)

A completed task handle is modelled by its settlement time (the order in
which the event loop observes it) and its outcome.  `wait()` is
`Promise.all(this.promises)`: it fulfils with the results in `add`
order when every handle fulfils, and rejects with the reason of the
earliest-settling rejected handle otherwise.  On fulfilment the source
then resets `count` and `promises`; on rejection the `await` throws
before the reset, while the per-handle `finally` callbacks still
decrement `count` as each handle settles. -/

/-- A task-completion handle: when it settles and with what outcome. -/
structure TaskHandle (ε α : Type) where
  settleTime : Nat
  outcome : Except ε α
deriving Repr

/-- The `WaitGroup` fields: `count` and `promises`. -/
structure WaitGroup (ε α : Type) where
  count : Int
  promises : List (TaskHandle ε α)
deriving Repr

/-- A freshly constructed `WaitGroup`. -/
def WaitGroup.new {ε α : Type} : WaitGroup ε α := { count := 0, promises := [] }

/-- `add(goroutinePromise)`: increments `count` and appends the handle
(whose `finally` will decrement `count` when it settles). -/
def WaitGroup.add {ε α : Type} (wg : WaitGroup ε α) (h : TaskHandle ε α) :
    WaitGroup ε α :=
  { count := wg.count + 1, promises := wg.promises ++ [h] }

/-- One settlement observation for `Promise.all`: keep the
earliest-settling rejection seen so far (ties keep the
earlier-attached handle). -/
def frStep {ε α : Type} (acc : Option (Nat × ε)) (h : TaskHandle ε α) : Option (Nat × ε) :=
  match h.outcome, acc with
  | .error e, none => some (h.settleTime, e)
  | .error e, some (t, e0) =>
    if h.settleTime < t then some (h.settleTime, e) else some (t, e0)
  | .ok _, _ => acc

/-- The rejection `Promise.all` settles with: among the rejected
handles, the one the event loop observes first (smallest settlement
time; on a tie the one added earlier, since handlers are attached in
order). -/
def firstRejection {ε α : Type} (hs : List (TaskHandle ε α)) : Option (Nat × ε) :=
  hs.foldl frStep none

/-- `Promise.all` over settled handles. -/
def promiseAll {ε α : Type} (hs : List (TaskHandle ε α)) : Except ε (List α) :=
  match firstRejection hs with
  | some (_, e) => .error e
  | none => .ok (hs.filterMap fun h => h.outcome.toOption)

/-- `wait()`: awaits `Promise.all(this.promises)`; on fulfilment resets
`count` and `promises` and returns the results; on rejection the reset
is skipped (the `await` throws) and the handles stay retained, while
the `finally` callbacks drive `count` down by one per settled handle. -/
def WaitGroup.wait {ε α : Type} (wg : WaitGroup ε α) :
    Except ε (List α) × WaitGroup ε α :=
  match promiseAll wg.promises with
  | .ok l => (.ok l, { count := 0, promises := [] })
  | .error e => (.error e, { wg with count := wg.count - wg.promises.length })

/-! ## Worker pool teardown (src/worker-pool.ts)

Workers are modelled by numeric ids.  `terminate()` (lines 155-158)
calls `worker.terminate()` on every worker and awaits them; it touches
none of the pool's fields and settles no pending task.  Each worker's
`exit` event then fires `removeWorker`, which splices the worker out of
both arrays and — when tasks are still queued and the pool is below its
bound — creates a replacement worker. -/

/-- The pool fields the teardown path reads and writes.  `nextId` is
model bookkeeping for allocating fresh worker ids. -/
structure WorkerPool where
  workers : List Nat
  availableWorkers : List Nat
  taskQueue : List Nat
  maxWorkers : Nat
  nextId : Nat
deriving Repr, DecidableEq

/-- `createWorker()` as the teardown path exercises it: pushes a fresh
worker onto `workers` and `availableWorkers`. -/
def createWorker (p : WorkerPool) : WorkerPool :=
  { p with
    workers := p.workers ++ [p.nextId]
    availableWorkers := p.availableWorkers ++ [p.nextId]
    nextId := p.nextId + 1 }

/-- `removeWorker(worker)` (lines 89-103): splice from both arrays,
then `if (this.workers.length < this.maxWorkers && this.taskQueue.length > 0)
this.createWorker()`. -/
def removeWorker (p : WorkerPool) (w : Nat) : WorkerPool :=
  let p1 := { p with
    workers := p.workers.erase w
    availableWorkers := p.availableWorkers.erase w }
  if p1.workers.length < p1.maxWorkers && !p1.taskQueue.isEmpty then
    createWorker p1
  else p1

/-- `terminate()` followed by the `exit` events of every worker it
terminated (each of which runs `removeWorker`).  Returns the final pool
and the list of pending-task ids that were rejected during teardown —
the source rejects none, so that list is built empty by construction of
the traversal (no step settles a queue entry). -/
def terminateRun (p : WorkerPool) : WorkerPool × List Nat :=
  (p.workers.foldl (fun acc w => removeWorker acc w) p, [])

/-! ## calculateElementSize (src/with-safety.ts)

`Math.ceil(n * 1.5)` for a natural `n` is exact in floating point in the
relevant range and equals `⌈3n/2⌉ = (3n+1)/2` in integer arithmetic. -/

/-- `Math.ceil(n * 1.5)` on a natural number. -/
def ceilMul3Div2 (n : Nat) : Nat := (3 * n + 1) / 2

/-- `calculateElementSize(data)` for a value whose serialisation
attempt is `ser` (`JSON.stringify` + UTF-8 encode, or a thrown
exception): `max(256, ceil((length + 4) * 1.5))`, or the safe default
1024 when serialisation throws. -/
def calculateElementSize (ser : Except Unit (List Nat)) : Nat :=
  match ser with
  | .ok encoded => max 256 (ceilMul3Div2 (encoded.length + 4))
  | .error _ => 1024

/-- Invariant for the rendezvous scenario: on a capacity-0 open channel
with one sender and one receiver, both parties stay in their
start/parked states and no index ever moves. -/
def c4Inv {α : Type} (s : Sys α) : Prop :=
  s.ch.bufferSize = 0 ∧ s.ch.closed = false ∧
  s.ch.writeIndex = 0 ∧ s.ch.readIndex = 0 ∧
  (s.sender = .start ∨ s.sender = .parked) ∧
  (s.receiver = .start ∨ s.receiver = .parked)

/-! ## Helper lemmas -/

/-- For `bufferSize ≥ 1` the wait guard of `send` is dead code: the
occupancy expression is a remainder modulo `bufferSize`, hence always
strictly below `bufferSize`, so `currentSize >= bufferSize` never
holds. -/
theorem send_guard_dead (ch : ChannelState) (hB : 1 ≤ ch.bufferSize) :
    (ch.bufferSize == 0 || optGe (currentSize ch) ch.bufferSize) = false := by
  have hB0 : ch.bufferSize ≠ 0 := Nat.one_le_iff_ne_zero.mp hB
  have hpos : (0 : Int) < (ch.bufferSize : Int) := by exact_mod_cast Nat.pos_of_ne_zero hB0
  have hcs : currentSize ch =
      some (((ch.writeIndex : Int) - ch.readIndex + ch.bufferSize) % (ch.bufferSize : Int)) := by
    simp [currentSize, hB0]
  rw [hcs]
  simp only [optGe, Bool.or_eq_false_iff]
  constructor
  · simpa using hB0
  · simp only [decide_eq_false_iff_not, not_le]
    exact Int.emod_lt_of_pos _ hpos

/-- `setBytes` never changes the length of the data region. -/
theorem setBytes_length (bs : List Nat) (data : List Nat) (off : Nat) :
    (setBytes data off bs).1.length = data.length := by
  induction bs generalizing data off with
  | nil => rfl
  | cons b bs ih =>
    simp only [setBytes, setByte]
    by_cases h : off < data.length
    · simp only [h, if_true]
      rw [ih]
      exact List.length_set data off _
    · simp [h]

/-- The byte-copy loop succeeds when the last byte lands inside the
region. -/
theorem setBytes_ok (bs : List Nat) (data : List Nat) (off : Nat)
    (h : off + bs.length ≤ data.length) :
    (setBytes data off bs).2 = true := by
  induction bs generalizing data off with
  | nil => rfl
  | cons b bs ih =>
    have hlt : off < data.length := by
      simp only [List.length_cons] at h
      omega
    simp only [setBytes, setByte, hlt, if_true]
    refine ih _ _ ?_
    rw [List.length_set]
    simp only [List.length_cons] at h
    omega

/-- The byte-copy loop throws a `RangeError` when a nonempty payload
runs past the end of the region. -/
theorem setBytes_err (bs : List Nat) (data : List Nat) (off : Nat)
    (h : data.length < off + bs.length) (hne : 0 < bs.length) :
    (setBytes data off bs).2 = false := by
  induction bs generalizing data off with
  | nil => simp at hne
  | cons b bs ih =>
    simp only [setBytes, setByte]
    by_cases hlt : off < data.length
    · simp only [hlt, if_true]
      have hlen : (data.set off (b % 256)).length = data.length := List.length_set data off _
      by_cases hbs : bs = []
      · subst hbs
        simp only [List.length_cons, List.length_nil] at h
        omega
      · refine ih _ _ ?_ ?_
        · rw [hlen]; simp only [List.length_cons] at h; omega
        · exact List.length_pos.mpr hbs
    · simp [hlt]

/-- For `capacity ≥ 1` the wait branch of `tryWrite` is unreachable, so
`tryWrite` reduces to the write path. -/
theorem tryWrite_reduce (ch : ChannelState) (bytes : List Nat) (hB : 1 ≤ ch.bufferSize) :
    tryWrite ch (.ok bytes) =
      (match setUint32LE ch.data (slotOffset ch.writeIndex ch.bufferSize ch.elementSize)
          bytes.length with
      | none => SendStep.failed .rangeError ch
      | some d1 =>
        match setBytes d1 (slotOffset ch.writeIndex ch.bufferSize ch.elementSize + 4) bytes with
        | (d2, false) => .failed .rangeError { ch with data := d2 }
        | (d2, true) =>
          .committed { ch with data := d2, writeIndex := ch.writeIndex + 1 }) := by
  rw [tryWrite, send_guard_dead ch hB]
  rfl

/-- `setUint32LE` preserves the region length when it succeeds. -/
theorem setUint32LE_length (data : List Nat) (off v : Nat) (d1 : List Nat)
    (h : setUint32LE data off v = some d1) : d1.length = data.length := by
  rw [setUint32LE] at h
  by_cases h4 : off + 4 ≤ data.length
  · rw [if_pos h4] at h
    cases h
    simp [List.length_set]
  · rw [if_neg h4] at h
    exact Option.noConfusion h

/-- On a capacity-0 open channel, every sender step preserves the
deadlock invariant: `sendEnter` can only park (the `bufferSize == 0`
guard always fires) and `waitForSpace` can never resolve (its occupancy
comparison is against `NaN` and the channel is open). -/
theorem c4Inv_senderStep {α : Type} (ser : Except Unit (List Nat)) (s : Sys α)
    (h : c4Inv s) : c4Inv (senderStep ser s) := by
  obtain ⟨hB, hcl, hw, hr, hs, hrc⟩ := h
  have hguard : (s.ch.bufferSize == 0 || optGe (currentSize s.ch) s.ch.bufferSize) = true := by
    simp [hB]
  rcases hs with hs | hs
  · have : senderStep ser s =
        applySendStep s (sendEnter s.ch ser) := by
      rw [senderStep, hs]
    rw [this, sendEnter, hcl]
    simp only [Bool.false_eq_true, if_false, tryWrite, hguard, if_true, applySendStep]
    exact ⟨hB, hcl, hw, hr, Or.inr rfl, hrc⟩
  · have hres : waitForSpaceResolved s.ch = false := by
      simp [waitForSpaceResolved, currentSize, hB, optLt, hcl]
    have : senderStep ser s = s := by
      rw [senderStep, hs, hres]
      simp
    rw [this]
    exact ⟨hB, hcl, hw, hr, Or.inr hs, hrc⟩

/-- On a capacity-0 open channel, every receiver step preserves the
deadlock invariant: with `write_index = read_index` the receiver can
only park, and `waitForData` can never resolve while the channel stays
open and uncommitted. -/
theorem c4Inv_receiverStep {α : Type} (deser : List Nat → Except Unit α) (s : Sys α)
    (h : c4Inv s) : c4Inv (receiverStep deser s) := by
  obtain ⟨hB, hcl, hw, hr, hs, hrc⟩ := h
  have hwr : (s.ch.writeIndex == s.ch.readIndex) = true := by
    simp [hw, hr]
  rcases hrc with hrc | hrc
  · have : receiverStep deser s = applyRecvStep s (receiveEnter deser s.ch) := by
      rw [receiverStep, hrc]
    rw [this, receiveEnter]
    simp only [hcl, Bool.false_and, Bool.false_eq_true, if_false, tryRead, hwr, if_true,
      applyRecvStep]
    exact ⟨hB, rfl, hw, hr, hs, Or.inr rfl⟩
  · have hres : waitForDataResolved s.ch = false := by
      simp [waitForDataResolved, hw, hr, hcl]
    have : receiverStep deser s = s := by
      rw [receiverStep, hrc, hres]
      simp
    rw [this]
    exact ⟨hB, hcl, hw, hr, hs, Or.inr hrc⟩

/-- The deadlock invariant is preserved by whole runs. -/
theorem c4Inv_run {α : Type} (ser : Except Unit (List Nat))
    (deser : List Nat → Except Unit α) (schedule : List Bool) (s : Sys α)
    (h : c4Inv s) : c4Inv (runSys ser deser s schedule) := by
  induction schedule generalizing s with
  | nil => exact h
  | cons b rest ih =>
    rw [runSys]
    rcases b with _ | _
    · exact ih _ (c4Inv_receiverStep deser s h)
    · exact ih _ (c4Inv_senderStep ser s h)

/-! ## Claim C4 -/

/-- Claim C4 (refuted, code bug): the rendezvous handshake does not
exist.  On a capacity-0 channel (any slot size) with one sender sending
42 and one receiver receiving, under EVERY interleaving both parties
only ever park: `waitForSpace`/`waitForData` never resolve while the
channel is open because the occupancy expression is a `NaN` comparison,
so no commit is ever performed, the sender never completes, the
receiver never returns 42, and `read_index` and `write_index` stay 0
instead of reaching 1. -/
theorem c4_rendezvous_deadlock (es : Nat) (schedule : List Bool) :
    (runSys (serNat 42) deserNat
      { ch := construct 0 es, sender := SenderPC.start, receiver := ReceiverPC.start }
      schedule).ch.writeIndex = 0 ∧
    (runSys (serNat 42) deserNat
      { ch := construct 0 es, sender := SenderPC.start, receiver := ReceiverPC.start }
      schedule).ch.readIndex = 0 ∧
    (runSys (serNat 42) deserNat
      { ch := construct 0 es, sender := SenderPC.start, receiver := ReceiverPC.start }
      schedule).sender ≠ SenderPC.done ∧
    ∀ v : Nat, (runSys (serNat 42) deserNat
      { ch := construct 0 es, sender := SenderPC.start, receiver := ReceiverPC.start }
      schedule).receiver ≠ ReceiverPC.done v := by
  have h0 : c4Inv
      ({ ch := construct 0 es, sender := SenderPC.start, receiver := ReceiverPC.start } :
        Sys Nat) :=
    ⟨rfl, rfl, rfl, rfl, Or.inl rfl, Or.inl rfl⟩
  obtain ⟨hB, hcl, hw, hr, hs, hrc⟩ :=
    c4Inv_run (serNat 42) deserNat schedule _ h0
  refine ⟨hw, hr, ?_, ?_⟩
  · rcases hs with hs | hs <;> simp [hs]
  · intro v
    rcases hrc with hrc | hrc <;> simp [hrc]

/-! ## Claim C1 -/

/-- Claim C1 (refuted, code bug): bounded occupancy fails.  On a
capacity-1 channel a second `send` performed while `write_index −
read_index` already equals the capacity still commits — the source's
full-buffer guard compares a remainder modulo `bufferSize` against
`bufferSize` and can never fire — so afterwards `write_index −
read_index = 2 > 1` and the unread slot has been overwritten. -/
theorem c1_occupancy_overflow :
    sendEnter (construct 1 8) (serNat 1) = .committed
      { construct 1 8 with writeIndex := 1, data := [1, 0, 0, 0, 1, 0, 0, 0] } ∧
    sendEnter { construct 1 8 with writeIndex := 1, data := [1, 0, 0, 0, 1, 0, 0, 0] }
        (serNat 2) = .committed
      { construct 1 8 with writeIndex := 2, data := [1, 0, 0, 0, 2, 0, 0, 0] } ∧
    ({ construct 1 8 with
        writeIndex := 2,
        data := [1, 0, 0, 0, 2, 0, 0, 0] } : ChannelState).writeIndex -
      ({ construct 1 8 with
        writeIndex := 2,
        data := [1, 0, 0, 0, 2, 0, 0, 0] } : ChannelState).readIndex = 2 ∧
    (construct 1 8).bufferSize = 1 := by decide

/-! ## Claim C2 -/

/-- Claim C2 (counterexample): a send that was blocked waiting for
space and retries after the close does NOT fail with the Closed error.
Concretely: on a capacity-0 channel a send parks; the channel is then
closed, which resolves `waitForSpace`; the retry runs `tryWrite`
without re-checking `closed` and simply parks again (it neither fails
nor commits), so the blocked sender loops forever. -/
theorem c2_counterexample :
    sendEnter (construct 0 8) (serNat 42) =
      .parked { construct 0 8 with waitingSenders := 1 } ∧
    waitForSpaceResolved (close { construct 0 8 with waitingSenders := 1 }) = true ∧
    parkedSenderRetry (close { construct 0 8 with waitingSenders := 1 }) (serNat 42) =
      .parked (close { construct 0 8 with waitingSenders := 1 }) := by decide

/-- Claim C2 (amended): once `closed = 1`, every send attempted after
the close fails with the Closed error and leaves the state (hence
`write_index`) unchanged; a sender already parked on a capacity-0
channel, however, does not fail when it retries after the close — it
re-enters the waiting state, with `write_index` still unchanged. -/
theorem c2_close_terminal_amended :
    (∀ (ch : ChannelState) (ser : Except Unit (List Nat)), ch.closed = true →
      sendEnter ch ser = .failed .closedChannel ch) ∧
    (∀ (ch : ChannelState) (ser : Except Unit (List Nat)),
      ch.closed = true → ch.bufferSize = 0 →
      parkedSenderRetry ch ser =
        .parked { ch with waitingSenders := ch.waitingSenders - 1 + 1 }) := by
  constructor
  · intro ch ser h
    simp [sendEnter, h]
  · intro ch ser hcl hB
    simp [parkedSenderRetry, tryWrite, hB]

/-- Witness for the amended C2 statement at concrete channels. -/
theorem c2_close_terminal_witness :
    sendEnter (close (construct 1 8)) (serNat 5) =
      .failed .closedChannel (close (construct 1 8)) ∧
    parkedSenderRetry (close { construct 0 8 with waitingSenders := 1 }) (serNat 5) =
      .parked { close { construct 0 8 with waitingSenders := 1 } with
        waitingSenders := 1 - 1 + 1 } :=
  ⟨c2_close_terminal_amended.1 _ _ (by decide),
   c2_close_terminal_amended.2 _ _ (by decide) (by decide)⟩

/-! ## Claim C3 -/

/-- Claim C3 (counterexample): `send` performs no payload-size check.
On an open capacity-2 channel with `slot_size = 8`, a 6-byte payload
(which exceeds `slot_size − 4 = 4`) does not fail with any
PayloadTooLarge error: it is written — spilling two bytes into the
second slot's region — and the send commits, advancing
`write_index`. -/
theorem c3_counterexample :
    (construct 2 8).elementSize - 4 < 6 ∧
    sendEnter (construct 2 8) (.ok [1, 2, 3, 4, 5, 6]) = .committed
      { construct 2 8 with
        writeIndex := 1,
        data := [6, 0, 0, 0, 1, 2, 3, 4, 5, 6, 0, 0, 0, 0, 0, 0] } := by decide

/-- Claim C3 (amended): `send` performs no payload-size check.  On an
open channel with `capacity ≥ 1`, a payload of ANY length — including
one exceeding `slot_size − 4` — is written and the send commits,
advancing `write_index`, whenever `offset + 4 + length` still fits
inside the whole data region (the excess bytes spill past the slot
boundary into the neighbouring slots).  Only when the write would run
past the end of the region does the send fail, with a range error
(there is no PayloadTooLarge error), and then `write_index` is left
unchanged. -/
theorem c3_no_size_check_amended :
    (∀ (ch : ChannelState) (bytes : List Nat),
      1 ≤ ch.bufferSize → ch.closed = false →
      slotOffset ch.writeIndex ch.bufferSize ch.elementSize + 4 + bytes.length ≤
        ch.data.length →
      ∃ d, sendEnter ch (.ok bytes) =
        .committed { ch with data := d, writeIndex := ch.writeIndex + 1 }) ∧
    (∀ (ch : ChannelState) (bytes : List Nat),
      1 ≤ ch.bufferSize → ch.closed = false →
      slotOffset ch.writeIndex ch.bufferSize ch.elementSize + 4 ≤ ch.data.length →
      ch.data.length <
        slotOffset ch.writeIndex ch.bufferSize ch.elementSize + 4 + bytes.length →
      ∃ d, sendEnter ch (.ok bytes) = .failed .rangeError { ch with data := d }) := by
  constructor
  · intro ch bytes hB hcl hfit
    have h4 : slotOffset ch.writeIndex ch.bufferSize ch.elementSize + 4 ≤ ch.data.length := by
      omega
    rcases h1 : setUint32LE ch.data (slotOffset ch.writeIndex ch.bufferSize ch.elementSize)
        bytes.length with _ | d1
    · exfalso
      rw [setUint32LE, if_pos h4] at h1
      exact Option.noConfusion h1
    · have hlen1 : d1.length = ch.data.length := setUint32LE_length _ _ _ _ h1
      have h2 : (setBytes d1
          (slotOffset ch.writeIndex ch.bufferSize ch.elementSize + 4) bytes).2 = true :=
        setBytes_ok _ _ _ (by rw [hlen1]; omega)
      rcases hsb : setBytes d1
          (slotOffset ch.writeIndex ch.bufferSize ch.elementSize + 4) bytes with ⟨d2, flag⟩
      rw [hsb] at h2
      subst h2
      refine ⟨d2, ?_⟩
      rw [sendEnter, if_neg (by simp [hcl]), tryWrite_reduce ch bytes hB]
      simp only [h1, hsb]
  · intro ch bytes hB hcl h4 hover
    rcases h1 : setUint32LE ch.data (slotOffset ch.writeIndex ch.bufferSize ch.elementSize)
        bytes.length with _ | d1
    · exfalso
      rw [setUint32LE, if_pos h4] at h1
      exact Option.noConfusion h1
    · have hlen1 : d1.length = ch.data.length := setUint32LE_length _ _ _ _ h1
      have h2 : (setBytes d1
          (slotOffset ch.writeIndex ch.bufferSize ch.elementSize + 4) bytes).2 = false :=
        setBytes_err _ _ _ (by rw [hlen1]; omega) (by omega)
      rcases hsb : setBytes d1
          (slotOffset ch.writeIndex ch.bufferSize ch.elementSize + 4) bytes with ⟨d2, flag⟩
      rw [hsb] at h2
      subst h2
      refine ⟨d2, ?_⟩
      rw [sendEnter, if_neg (by simp [hcl]), tryWrite_reduce ch bytes hB]
      simp only [h1, hsb]

/-- Witness for the amended C3 statement: the capacity-2, slot-size-8
channel commits a 6-byte payload into slot 0, and fails with a range
error when the same payload is written at slot 1 (where it would run
past the end of the region) with `write_index` unchanged. -/
theorem c3_no_size_check_witness :
    (∃ d, sendEnter (construct 2 8) (.ok [1, 2, 3, 4, 5, 6]) =
      .committed { construct 2 8 with data := d, writeIndex := 0 + 1 }) ∧
    (∃ d, sendEnter { construct 2 8 with writeIndex := 1 } (.ok [1, 2, 3, 4, 5, 6]) =
      .failed .rangeError
        { { construct 2 8 with writeIndex := 1 } with data := d }) :=
  ⟨c3_no_size_check_amended.1 (construct 2 8) [1, 2, 3, 4, 5, 6]
      (by decide) (by decide) (by decide),
   c3_no_size_check_amended.2 { construct 2 8 with writeIndex := 1 } [1, 2, 3, 4, 5, 6]
      (by decide) (by decide) (by decide) (by decide)⟩

/-! ## Claim C5 -/

/-- On a nonempty channel (`write_index ≠ read_index`) the read path of
`tryRead` neither parks nor fails with the closed-and-empty error: its
only outcomes are a received value, a range error or a
deserialisation error. -/
theorem tryRead_nonempty_cases {α : Type} (deser : List Nat → Except Unit α)
    (ch : ChannelState) (hwr : ch.writeIndex ≠ ch.readIndex) :
    (∀ ch2, tryRead deser ch ≠ .parked ch2) ∧
    (∀ ch2, tryRead deser ch ≠ .failed .closedAndEmpty ch2) := by
  have hbeq : (ch.writeIndex == ch.readIndex) = false := by
    simp [hwr]
  rcases hg : getUint32LE ch.data (slotOffset ch.readIndex ch.bufferSize ch.elementSize)
    with _ | len
  · constructor <;> intro ch2 <;> simp [tryRead, hbeq, hg]
  · rcases hb : getBytes ch.data
        (slotOffset ch.readIndex ch.bufferSize ch.elementSize + 4) len with _ | bs
    · constructor <;> intro ch2 <;> simp [tryRead, hbeq, hg, hb]
    · rcases hd : deser bs with e | v
      · constructor <;> intro ch2 <;> simp [tryRead, hbeq, hg, hb, hd]
      · constructor <;> intro ch2 <;> simp [tryRead, hbeq, hg, hb, hd]

/-- Claim C5 helper: `receive` fails with the closed-and-empty error
precisely when `closed = 1` and `write_index = read_index` at the time
of the attempt. -/
theorem receiveEnter_closedAndEmpty_iff {α : Type} (deser : List Nat → Except Unit α)
    (ch : ChannelState) :
    (∃ ch2, receiveEnter deser ch = RecvStep.failed .closedAndEmpty ch2) ↔
      ch.closed = true ∧ ch.writeIndex = ch.readIndex := by
  constructor
  · rintro ⟨ch2, h⟩
    by_cases hce : (ch.closed && ch.writeIndex == ch.readIndex) = true
    · simpa using hce
    · exfalso
      rw [receiveEnter, if_neg] at h
      · by_cases hwr : ch.writeIndex = ch.readIndex
        · have hcl : ch.closed = false := by
            simp [hwr] at hce
            exact hce
          simp [tryRead, hwr, hcl] at h
        · exact (tryRead_nonempty_cases deser ch hwr).2 ch2 h
      · simpa using hce
  · rintro ⟨hcl, hwr⟩
    exact ⟨ch, by simp [receiveEnter, hcl, hwr]⟩

/-- Claim C5 helper: a successful `receive` consumes exactly the slot
at `read_index` — it returns the deserialisation of the bytes read
there and stores back `read_index + 1`, leaving everything else
unchanged. -/
theorem receiveEnter_received_shape {α : Type} (deser : List Nat → Except Unit α)
    (ch : ChannelState) (v : α) (ch2 : ChannelState)
    (h : receiveEnter deser ch = .received v ch2) :
    ch2 = { ch with readIndex := ch.readIndex + 1 } ∧
    ch.writeIndex ≠ ch.readIndex ∧
    ∃ len bs,
      getUint32LE ch.data (slotOffset ch.readIndex ch.bufferSize ch.elementSize) = some len ∧
      getBytes ch.data (slotOffset ch.readIndex ch.bufferSize ch.elementSize + 4) len =
        some bs ∧
      deser bs = .ok v := by
  by_cases hce : (ch.closed && ch.writeIndex == ch.readIndex) = true
  · rw [receiveEnter, if_pos hce] at h
    exact absurd h (by simp)
  · rw [receiveEnter, if_neg (by simpa using hce)] at h
    by_cases hwr : ch.writeIndex = ch.readIndex
    · exfalso
      have hbeq : (ch.writeIndex == ch.readIndex) = true := by simp [hwr]
      rcases Bool.eq_false_or_eq_true ch.closed with h0 | h0
      · simp [tryRead, hbeq, h0] at h
      · simp [tryRead, hbeq, h0] at h
    · have hbeq : (ch.writeIndex == ch.readIndex) = false := by simp [hwr]
      rcases hg : getUint32LE ch.data (slotOffset ch.readIndex ch.bufferSize ch.elementSize)
        with _ | len
      · simp [tryRead, hbeq, hg] at h
      · rcases hb : getBytes ch.data
            (slotOffset ch.readIndex ch.bufferSize ch.elementSize + 4) len with _ | bs
        · simp [tryRead, hbeq, hg, hb] at h
        · rcases hd : deser bs with e | v0
          · simp [tryRead, hbeq, hg, hb, hd] at h
          · simp only [tryRead, hbeq, Bool.false_eq_true, if_false, hg, hb, hd] at h
            cases h
            exact ⟨rfl, hwr, len, bs, rfl, hb, hd⟩

/-- Claim C5 (confirmed): `receive()` consumes the next committed slot
(the one at `read_index`), deserialises it and returns the value,
storing back `read_index + 1`; it fails with the closed-and-empty error
exactly when `closed = 1` and `write_index = read_index`.  On the
concrete capacity-1 channel where 97 was sent and the channel closed,
the first receive returns 97 and the second fails closed-and-empty. -/
theorem c5_receive_spec :
    (∀ (α : Type) (deser : List Nat → Except Unit α) (ch : ChannelState),
      (∃ ch2, receiveEnter deser ch = RecvStep.failed .closedAndEmpty ch2) ↔
        ch.closed = true ∧ ch.writeIndex = ch.readIndex) ∧
    (∀ (α : Type) (deser : List Nat → Except Unit α) (ch : ChannelState) (v : α)
        (ch2 : ChannelState),
      receiveEnter deser ch = .received v ch2 →
        ch2 = { ch with readIndex := ch.readIndex + 1 } ∧
        ∃ len bs,
          getUint32LE ch.data (slotOffset ch.readIndex ch.bufferSize ch.elementSize) =
            some len ∧
          getBytes ch.data (slotOffset ch.readIndex ch.bufferSize ch.elementSize + 4) len =
            some bs ∧
          deser bs = .ok v) ∧
    receiveEnter deserNat (close (afterSend (construct 1 8) (serNat 97))) =
      .received 97
        { close (afterSend (construct 1 8) (serNat 97)) with readIndex := 1 } ∧
    receiveEnter deserNat
        ({ close (afterSend (construct 1 8) (serNat 97)) with readIndex := 1 }) =
      .failed .closedAndEmpty
        { close (afterSend (construct 1 8) (serNat 97)) with readIndex := 1 } := by
  refine ⟨fun α deser ch => receiveEnter_closedAndEmpty_iff deser ch,
    fun α deser ch v ch2 h => ?_, by decide, by decide⟩
  obtain ⟨h1, _, h3⟩ := receiveEnter_received_shape deser ch v ch2 h
  exact ⟨h1, h3⟩

/-- Witness for C5 at a concrete channel: applying the theorem to the
capacity-1 channel holding the byte 97 discharges its hypothesis and
yields the slot bytes and their deserialisation. -/
theorem c5_receive_witness :
    ∃ len bs,
      getUint32LE (close (afterSend (construct 1 8) (serNat 97))).data
        (slotOffset (close (afterSend (construct 1 8) (serNat 97))).readIndex
          (close (afterSend (construct 1 8) (serNat 97))).bufferSize
          (close (afterSend (construct 1 8) (serNat 97))).elementSize) = some len ∧
      getBytes (close (afterSend (construct 1 8) (serNat 97))).data
        (slotOffset (close (afterSend (construct 1 8) (serNat 97))).readIndex
          (close (afterSend (construct 1 8) (serNat 97))).bufferSize
          (close (afterSend (construct 1 8) (serNat 97))).elementSize + 4) len =
        some bs ∧
      deserNat bs = .ok 97 :=
  (c5_receive_spec.2.1 Nat deserNat (close (afterSend (construct 1 8) (serNat 97))) 97
    { close (afterSend (construct 1 8) (serNat 97)) with readIndex := 1 }
    (by decide)).2

/-! ## Claim C6 -/

/-- Claim C6 helper: the async iterator and the receive-until-
closed-and-empty loop yield exactly the same list of values, for every
channel state and every fuel bound.  (The only observable difference is
that the iterator's catch clause also swallows range/deserialisation
errors, which the loop reports in its second component.) -/
theorem iterDrain_eq_recvLoop {α : Type} (deser : List Nat → Except Unit α)
    (fuel : Nat) (ch : ChannelState) :
    iterDrain deser fuel ch = (recvLoopSpec deser fuel ch).map Prod.fst := by
  induction fuel generalizing ch with
  | zero => rfl
  | succ fuel ih =>
    have hbne : (!isClosed ch || hasData ch) = !(ch.closed && ch.writeIndex == ch.readIndex) := by
      simp only [isClosed, hasData, bne, Bool.not_and]
    by_cases hce : (ch.closed && ch.writeIndex == ch.readIndex) = true
    · have hg : (!isClosed ch || hasData ch) = false := by rw [hbne, hce]; rfl
      have hre : receiveEnter deser ch = .failed .closedAndEmpty ch := by
        rw [receiveEnter, if_pos hce]
      rw [iterDrain, recvLoopSpec, hre, hg]
      simp
    · have hg : (!isClosed ch || hasData ch) = true := by
        rw [hbne, Bool.eq_false_iff.mpr hce]
        rfl
      rw [iterDrain, recvLoopSpec]
      rcases hre : receiveEnter deser ch with ⟨v, ch2⟩ | ⟨ch2⟩ | ⟨e, ch2⟩
      · simp only [hg, if_true, hre, ih ch2]
        rcases recvLoopSpec deser fuel ch2 with _ | p <;> rfl
      · simp only [hg, if_true, hre]
        rfl
      · simp only [hg, if_true, hre]
        cases e <;> rfl

/-- Claim C6 (confirmed): the async iterator is equivalent to a loop
around `receive()` terminating on the closed-and-empty error — they
yield the same value lists on every channel — and on the concrete
capacity-3 channel into which 1, 2, 3 were sent before closing, both
yield exactly [1, 2, 3], the loop terminating cleanly (no error). -/
theorem c6_iteration_equiv :
    (∀ (α : Type) (deser : List Nat → Except Unit α) (fuel : Nat) (ch : ChannelState),
      iterDrain deser fuel ch = (recvLoopSpec deser fuel ch).map Prod.fst) ∧
    iterDrain deserNat 4 (close (afterSend (afterSend (afterSend (construct 3 8)
      (serNat 1)) (serNat 2)) (serNat 3))) = some [1, 2, 3] ∧
    recvLoopSpec deserNat 4 (close (afterSend (afterSend (afterSend (construct 3 8)
      (serNat 1)) (serNat 2)) (serNat 3))) = some ([1, 2, 3], none) :=
  ⟨fun _ deser fuel ch => iterDrain_eq_recvLoop deser fuel ch, by decide, by decide⟩

/-! ## Claim C7 -/

/-- One `Promise.all` observation step keeps `none` exactly when
nothing was rejected so far and the observed handle fulfilled. -/
theorem frStep_none_iff {ε α : Type} (acc : Option (Nat × ε)) (h : TaskHandle ε α) :
    frStep acc h = none ↔ acc = none ∧ ∃ v, h.outcome = .ok v := by
  rcases ho : h.outcome with e | v
  · rcases acc with _ | ⟨t, e0⟩
    · simp [frStep, ho]
    · simp only [frStep, ho]
      constructor
      · intro hcontra
        exact absurd hcontra (by split <;> simp)
      · rintro ⟨hcontra, -⟩
        exact Option.noConfusion hcontra
  · simp [frStep, ho]

/-- The `Promise.all` scan ends with no rejection exactly when it
started with none and every scanned handle fulfilled. -/
theorem frFold_none_iff {ε α : Type} (hs : List (TaskHandle ε α)) :
    ∀ acc, hs.foldl frStep acc = none ↔
      acc = none ∧ ∀ h ∈ hs, ∃ v, h.outcome = .ok v := by
  induction hs with
  | nil => intro acc; simp
  | cons h hs ih =>
    intro acc
    rw [List.foldl_cons, ih, frStep_none_iff]
    constructor
    · rintro ⟨⟨hacc, hok⟩, hall⟩
      refine ⟨hacc, fun h2 hmem => ?_⟩
      rcases List.mem_cons.mp hmem with rfl | hmem
      · exact hok
      · exact hall h2 hmem
    · rintro ⟨hacc, hall⟩
      exact ⟨⟨hacc, hall h (List.mem_cons_self h hs)⟩,
        fun h2 hmem => hall h2 (List.mem_cons_of_mem h hmem)⟩

/-- If the `Promise.all` scan produces a rejection, that rejection
either was already in the accumulator or belongs to a scanned handle,
and its settlement time is minimal among the accumulator and every
scanned rejected handle. -/
theorem frFold_some {ε α : Type} (hs : List (TaskHandle ε α)) :
    ∀ (acc : Option (Nat × ε)) (t : Nat) (e : ε),
      hs.foldl frStep acc = some (t, e) →
        (acc = some (t, e) ∨ ∃ h ∈ hs, h.settleTime = t ∧ h.outcome = .error e) ∧
        (∀ t0 e0, acc = some (t0, e0) → t ≤ t0) ∧
        (∀ h ∈ hs, (∃ e2, h.outcome = .error e2) → t ≤ h.settleTime) := by
  induction hs with
  | nil =>
    intro acc t e hfold
    rw [List.foldl_nil] at hfold
    refine ⟨Or.inl hfold, fun t0 e0 h0 => ?_, by simp⟩
    rw [hfold] at h0
    cases h0
    exact le_refl t
  | cons h hs ih =>
    intro acc t e hfold
    rw [List.foldl_cons] at hfold
    obtain ⟨hsrc, hminacc, hminlist⟩ := ih (frStep acc h) t e hfold
    rcases ho : h.outcome with e1 | v
    · rcases hacc : acc with _ | ⟨t0, e0⟩
      · have hstep : frStep acc h = some (h.settleTime, e1) := by
          rw [hacc]; simp [frStep, ho]
        have htle : t ≤ h.settleTime := hminacc h.settleTime e1 hstep
        refine ⟨?_, ?_, ?_⟩
        · rcases hsrc with hsrc | ⟨h2, hmem, h2t, h2e⟩
          · rw [hstep] at hsrc
            cases hsrc
            exact Or.inr ⟨h, List.mem_cons_self h hs, rfl, ho⟩
          · exact Or.inr ⟨h2, List.mem_cons_of_mem h hmem, h2t, h2e⟩
        · intro t1 e2 h1
          exact Option.noConfusion h1
        · intro h2 hmem herr
          rcases List.mem_cons.mp hmem with rfl | hmem
          · exact htle
          · exact hminlist h2 hmem herr
      · by_cases hlt : h.settleTime < t0
        · have hstep : frStep acc h = some (h.settleTime, e1) := by
            rw [hacc]; simp [frStep, ho, hlt]
          have htle : t ≤ h.settleTime := hminacc h.settleTime e1 hstep
          refine ⟨?_, ?_, ?_⟩
          · rcases hsrc with hsrc | ⟨h2, hmem, h2t, h2e⟩
            · rw [hstep] at hsrc
              cases hsrc
              exact Or.inr ⟨h, List.mem_cons_self h hs, rfl, ho⟩
            · exact Or.inr ⟨h2, List.mem_cons_of_mem h hmem, h2t, h2e⟩
          · intro t1 e2 h1
            cases h1
            omega
          · intro h2 hmem herr
            rcases List.mem_cons.mp hmem with rfl | hmem
            · exact htle
            · exact hminlist h2 hmem herr
        · have hstep : frStep acc h = some (t0, e0) := by
            rw [hacc]; simp [frStep, ho, hlt]
          have htle0 : t ≤ t0 := hminacc t0 e0 hstep
          refine ⟨?_, ?_, ?_⟩
          · rcases hsrc with hsrc | ⟨h2, hmem, h2t, h2e⟩
            · rw [hstep] at hsrc
              cases hsrc
              exact Or.inl rfl
            · exact Or.inr ⟨h2, List.mem_cons_of_mem h hmem, h2t, h2e⟩
          · intro t1 e2 h1
            cases h1
            exact htle0
          · intro h2 hmem herr
            rcases List.mem_cons.mp hmem with rfl | hmem
            · omega
            · exact hminlist h2 hmem herr
    · have hstep : frStep acc h = acc := by simp [frStep, ho]
      rw [hstep] at hsrc hminacc
      refine ⟨?_, hminacc, ?_⟩
      · rcases hsrc with hsrc | ⟨h2, hmem, h2t, h2e⟩
        · exact Or.inl hsrc
        · exact Or.inr ⟨h2, List.mem_cons_of_mem h hmem, h2t, h2e⟩
      · intro h2 hmem herr
        rcases List.mem_cons.mp hmem with rfl | hmem
        · rcases herr with ⟨e2, he2⟩
          rw [ho] at he2
          exact Except.noConfusion he2
        · exact hminlist h2 hmem herr

/-- When every outcome fulfils, `filterMap toOption` recovers the
values in order. -/
theorem filterMap_outcomes {ε α : Type} :
    ∀ (hs : List (TaskHandle ε α)) (vs : List α),
      hs.map (fun h => h.outcome) = vs.map Except.ok →
      (hs.filterMap fun h => h.outcome.toOption) = vs := by
  intro hs
  induction hs with
  | nil =>
    intro vs hmap
    rcases vs with _ | ⟨v, vs⟩
    · rfl
    · simp at hmap
  | cons h hs ih =>
    intro vs hmap
    rcases vs with _ | ⟨v, vs⟩
    · simp at hmap
    · simp only [List.map_cons, List.cons.injEq] at hmap
      obtain ⟨h1, h2⟩ := hmap
      have hfa : h.outcome.toOption = some v := by rw [h1]; rfl
      simp only [List.filterMap_cons, hfa]
      rw [ih vs h2]

/-- Claim C7 (confirmed): `wait()` resolves iff every added handle
resolved, and then yields the results in the order the handles were
added and leaves the group empty (count 0, no retained handles — equal
to a fresh group, hence reusable); if any handle rejects, `wait()`
rejects with the rejection the event loop observed first (minimal
settlement time among the rejected handles). -/
theorem c7_waitgroup_spec :
    (∀ (ε α : Type) (wg : WaitGroup ε α),
      (∃ l, (wg.wait).1 = .ok l) ↔ ∀ h ∈ wg.promises, ∃ v, h.outcome = .ok v) ∧
    (∀ (ε α : Type) (wg : WaitGroup ε α) (vs : List α),
      wg.promises.map (fun h => h.outcome) = vs.map Except.ok →
      wg.wait = (.ok vs, WaitGroup.new)) ∧
    (∀ (ε α : Type) (wg : WaitGroup ε α) (e : ε),
      (wg.wait).1 = .error e →
      ∃ h ∈ wg.promises, h.outcome = .error e ∧
        ∀ h2 ∈ wg.promises, (∃ e2, h2.outcome = .error e2) →
          h.settleTime ≤ h2.settleTime) ∧
    (∀ (ε α : Type) (wg : WaitGroup ε α) (l : List α),
      (wg.wait).1 = .ok l → (wg.wait).2 = WaitGroup.new) := by
  have hwait : ∀ (ε α : Type) (wg : WaitGroup ε α),
      wg.wait = match promiseAll wg.promises with
        | .ok l => (.ok l, { count := 0, promises := [] })
        | .error e => (.error e, { wg with count := wg.count - wg.promises.length }) :=
    fun ε α wg => rfl
  refine ⟨fun ε α wg => ?_, fun ε α wg vs hmap => ?_, fun ε α wg e he => ?_,
    fun ε α wg l hl => ?_⟩
  · rw [hwait]
    rcases hfr : firstRejection wg.promises with _ | ⟨t, e0⟩
    · have hpa : promiseAll wg.promises =
          .ok (wg.promises.filterMap fun h => h.outcome.toOption) := by
        rw [promiseAll, hfr]
      rw [hpa]
      constructor
      · intro _
        exact ((frFold_none_iff wg.promises none).mp hfr).2
      · intro _
        exact ⟨_, rfl⟩
    · have hpa : promiseAll wg.promises = .error e0 := by
        rw [promiseAll, hfr]
      rw [hpa]
      constructor
      · rintro ⟨l, hl⟩
        exact absurd hl (by simp)
      · intro hall
        have hnone : firstRejection wg.promises = none :=
          (frFold_none_iff wg.promises none).mpr ⟨rfl, hall⟩
        rw [hnone] at hfr
        exact Option.noConfusion hfr
  · have hall : ∀ h ∈ wg.promises, ∃ v, h.outcome = .ok v := by
      intro h hmem
      have hmm : h.outcome ∈ vs.map Except.ok := by
        rw [← hmap]
        exact List.mem_map_of_mem _ hmem
      rcases List.mem_map.mp hmm with ⟨v, hv, heq⟩
      exact ⟨v, heq.symm⟩
    have hfr : firstRejection wg.promises = none :=
      (frFold_none_iff wg.promises none).mpr ⟨rfl, hall⟩
    have hpa : promiseAll wg.promises = .ok vs := by
      rw [promiseAll, hfr]
      exact congrArg Except.ok (filterMap_outcomes wg.promises vs hmap)
    rw [hwait, hpa]
    rfl
  · rw [hwait] at he
    rcases hpa : promiseAll wg.promises with e0 | l
    · rw [hpa] at he
      have hee : e0 = e := by simpa using he
      rw [promiseAll] at hpa
      rcases hfr : firstRejection wg.promises with _ | ⟨t, e1⟩
      · rw [hfr] at hpa
        exact absurd hpa (by simp)
      · rw [hfr] at hpa
        have he1 : e1 = e0 := by
          simpa using hpa
        obtain ⟨hsrc, -, hmin⟩ := frFold_some wg.promises none t e1 hfr
        rcases hsrc with hsrc | ⟨h2, hmem, h2t, h2e⟩
        · exact Option.noConfusion hsrc
        · refine ⟨h2, hmem, ?_, fun h3 hmem3 herr3 => h2t ▸ hmin h3 hmem3 herr3⟩
          rw [h2e, he1, hee]
    · rw [hpa] at he
      exact absurd he (by simp)
  · rw [hwait] at hl ⊢
    rcases hpa : promiseAll wg.promises with e0 | l0
    · rw [hpa] at hl
      simp at hl
    · rfl

/-- Witness for C7 at a concrete group: two handles, both fulfilled
(at settlement times 0 and 5), so `wait()` resolves to the results in
add order and resets the group. -/
theorem c7_waitgroup_witness :
    (WaitGroup.wait
      { count := 2, promises := [⟨0, Except.ok 1⟩, ⟨5, Except.ok 2⟩] } :
        Except Unit (List Nat) × WaitGroup Unit Nat) =
      (.ok [1, 2], WaitGroup.new) :=
  c7_waitgroup_spec.2.1 Unit Nat
    { count := 2, promises := [⟨0, Except.ok 1⟩, ⟨5, Except.ok 2⟩] } [1, 2] rfl

/-! ## Claim C8 -/

/-- Claim C8 (counterexample): teardown neither clears the worker sets
nor rejects pending tasks.  A pool with one worker (id 0), bound 1 and
one queued task (id 7): `terminate()` terminates the worker, whose exit
event removes it and — because a task is still queued — immediately
spawns a replacement worker (id 1).  The task queue still holds task 7,
and the list of pending tasks rejected during teardown is empty (the
source has no Shutdown error at all). -/
theorem c8_counterexample :
    terminateRun
        { workers := [0], availableWorkers := [0], taskQueue := [7],
          maxWorkers := 1, nextId := 1 } =
      ({ workers := [1], availableWorkers := [1], taskQueue := [7],
         maxWorkers := 1, nextId := 2 }, []) := by decide

/-- Claim C8 (amended): `terminate()` requests shutdown of every worker
and awaits their termination; the ensuing exit events remove the
workers (spawning a replacement whenever tasks are still queued and the
pool is under its bound), but the pending queue is left completely
intact and no pending completion handle is rejected — no Shutdown error
exists in the source. -/
theorem c8_terminate_amended (p : WorkerPool) :
    (terminateRun p).1.taskQueue = p.taskQueue ∧
    (terminateRun p).2 = [] ∧
    (terminateRun p).1.maxWorkers = p.maxWorkers := by
  have key : ∀ (q : WorkerPool) (w : Nat),
      (removeWorker q w).taskQueue = q.taskQueue ∧
      (removeWorker q w).maxWorkers = q.maxWorkers := by
    intro q w
    simp only [removeWorker, createWorker]
    split <;> exact ⟨rfl, rfl⟩
  have main : ∀ (ws : List Nat) (q : WorkerPool),
      ((ws.foldl (fun acc w => removeWorker acc w) q).taskQueue = q.taskQueue ∧
       (ws.foldl (fun acc w => removeWorker acc w) q).maxWorkers = q.maxWorkers) := by
    intro ws
    induction ws with
    | nil => exact fun q => ⟨rfl, rfl⟩
    | cons w ws ih =>
      intro q
      rw [List.foldl_cons]
      exact ⟨(ih _).1.trans (key q w).1, (ih _).2.trans (key q w).2⟩
  exact ⟨(main p.workers p).1, rfl, (main p.workers p).2⟩

/-! ## Claim C9 -/

/-- Claim C9 (counterexample): the constructor does not fail when
`slot_size < 8`.  With capacity 1 and slot size 4 it succeeds exactly
as for any other arguments: it allocates `28 + 1 * 4 = 32` bytes and
initialises the header to `(1, 0, 0, 0, 4, 0, 0)`. -/
theorem c9_counterexample :
    headerWords (construct 1 4) = [1, 0, 0, 0, 4, 0, 0] ∧
    (construct 1 4).data = [0, 0, 0, 0] ∧
    totalSize 1 4 = 32 := by decide

/-- Claim C9 (amended): the constructor performs no validation at all —
for every capacity and slot size (including `slot_size < 8`) it
allocates a zero-initialised region of `28 + capacity * slot_size`
bytes and initialises the seven header words to
`(capacity, 0, 0, 0, slot_size, 0, 0)`. -/
theorem c9_create_amended (capacity slotSize : Nat) :
    totalSize capacity slotSize = 28 + capacity * slotSize ∧
    headerWords (construct capacity slotSize) =
      [capacity, 0, 0, 0, slotSize, 0, 0] ∧
    (construct capacity slotSize).data = List.replicate (capacity * slotSize) 0 :=
  ⟨rfl, rfl, rfl⟩

/-! ## Claim C10 -/

/-- Claim C10 (confirmed): for a value whose serialisation succeeds
with encoded byte length `L`, `calculateElementSize` returns
`max(256, ⌈1.5 · (L + 4)⌉)` — hence always at least 256 and at least
`L + 4` — and returns 1024 when serialisation throws.  (It is a plain
function of the serialisation outcome, hence deterministic.) -/
theorem c10_calculateElementSize_spec :
    (∀ bs : List Nat,
      (calculateElementSize (.ok bs) : Int) =
        max 256 (Int.ceil ((3 / 2 : ℚ) * ((bs.length : ℚ) + 4))) ∧
      256 ≤ calculateElementSize (.ok bs) ∧
      bs.length + 4 ≤ calculateElementSize (.ok bs)) ∧
    calculateElementSize (.error ()) = 1024 := by
  have hceil : ∀ n : Nat, Int.ceil ((3 / 2 : ℚ) * (n : ℚ)) = (((3 * n + 1) / 2 : Nat) : Int) := by
    intro n
    rcases Nat.even_or_odd n with ⟨k, hk⟩ | ⟨k, hk⟩
    · subst hk
      have h1 : ((3 / 2 : ℚ) * ((k + k : Nat) : ℚ)) = ((3 * k : ℤ) : ℚ) := by
        push_cast; ring
      have h2 : (3 * (k + k) + 1) / 2 = 3 * k := by omega
      rw [h1, Int.ceil_intCast, h2]
      push_cast; ring
    · subst hk
      have h2 : (3 * (2 * k + 1) + 1) / 2 = 3 * k + 2 := by omega
      rw [h2, Int.ceil_eq_iff]
      constructor
      · push_cast; linarith
      · push_cast; linarith
  refine ⟨fun bs => ⟨?_, ?_, ?_⟩, rfl⟩
  · have h := hceil (bs.length + 4)
    have hcast : ((bs.length : ℚ) + 4) = ((bs.length + 4 : Nat) : ℚ) := by push_cast; ring
    rw [hcast, h]
    simp only [calculateElementSize, ceilMul3Div2]
    push_cast [Nat.cast_max]
    rfl
  · simp only [calculateElementSize]
    exact le_max_left _ _
  · simp only [calculateElementSize, ceilMul3Div2]
    have h : bs.length + 4 ≤ (3 * (bs.length + 4) + 1) / 2 := by omega
    exact le_trans h (le_max_right _ _)

end GoChan
